import Mathlib

/-!
Verification of the mcp-catalog core against its specification.

The Go sources are shallowly embedded: Go strings are lists of characters
(`Str`), Go byte strings are lists of `Fin 256`, Go maps are association
lists, and the fallible Go functions return `Option`/`Except`.  Each
definition mirrors one function of the repository; the theorems at the end
of the file settle the specification claims.
-/

set_option maxHeartbeats 1000000

namespace MCPCatalog

/-- Go strings, modelled as lists of characters. -/
abbrev Str := List Char

/-- Go bytes. -/
abbrev Byte := Fin 256

/-- Model of Go `strings.HasPrefix prefixArg s` (argument order: pattern first,
string second): `sw p s` is true when `p` is an initial segment of `s`. -/
def sw : Str → Str → Bool
  | [], _ => true
  | _ :: _, [] => false
  | p :: ps, c :: cs => p == c && sw ps cs

/-- The lowercase hex alphabet used by Go `encoding/hex`. -/
def hexAlphabet : Str := "0123456789abcdef".toList

/-- One lowercase hex digit. -/
def hexDigit (n : Fin 16) : Char := hexAlphabet.getD n.val 'x'

/-- Model of the digit recognizer of Go `encoding/hex.DecodeString`; both
lowercase and uppercase digits are accepted, as in the source. -/
def hexVal (c : Char) : Option (Fin 16) :=
  if '0' ≤ c ∧ c ≤ '9' then some ⟨(c.toNat - 48) % 16, Nat.mod_lt _ (by norm_num)⟩
  else if 'a' ≤ c ∧ c ≤ 'f' then some ⟨(c.toNat - 87) % 16, Nat.mod_lt _ (by norm_num)⟩
  else if 'A' ≤ c ∧ c ≤ 'F' then some ⟨(c.toNat - 55) % 16, Nat.mod_lt _ (by norm_num)⟩
  else none

/-- Model of Go `hex.EncodeToString`: every byte becomes two lowercase
hex digits, high nibble first. -/
def hexEncode : List Byte → Str
  | [] => []
  | b :: bs =>
      hexDigit ⟨b.val / 16, Nat.div_lt_of_lt_mul (by have := b.isLt; omega)⟩ ::
      hexDigit ⟨b.val % 16, Nat.mod_lt _ (by norm_num)⟩ :: hexEncode bs

/-- Model of Go `hex.DecodeString`: pairs of hex digits; an odd length or a
non-hex character is an error (`none`). -/
def hexDecode : Str → Option (List Byte)
  | [] => some []
  | [_] => none
  | c1 :: c2 :: rest =>
    match hexVal c1, hexVal c2, hexDecode rest with
    | some hi, some lo, some bs =>
        some (⟨hi.val * 16 + lo.val, by have := hi.isLt; have := lo.isLt; omega⟩ :: bs)
    | _, _, _ => none

/-- Model of Go `strings.SplitN(s, sep, 2)` for a one-character separator,
keeping only the split case (`none` when the separator does not occur,
which in Go yields a one-element slice). -/
def splitOnceChar (sep : Char) : Str → Option (Str × Str)
  | [] => none
  | c :: cs =>
    if c = sep then some ([], cs)
    else match splitOnceChar sep cs with
      | none => none
      | some (a, b) => some (c :: a, b)

/-- `proxyResourcePrefix` of the source. -/
def resPfx : Str := "mcp-catalog://resource/".toList

/-- `proxyResourceTemplatePrefix` of the source. -/
def tplPfx : Str := "mcp-catalog://resource-template/".toList

/-- The source's `resourceRoute`, with the original URI kept as raw bytes. -/
structure ResourceRoute where
  serverName : Str
  originalURI : List Byte
  templateMode : Bool
deriving Repr, DecidableEq

/-- Model of `buildProxyResourceURI`: prefix, server name, `/`, hex of the
original URI bytes. -/
def buildProxyResourceURI (serverName : Str) (originalURI : List Byte) (template : Bool) : Str :=
  let encoded := hexEncode originalURI
  if template then tplPfx ++ serverName ++ '/' :: encoded
  else resPfx ++ serverName ++ '/' :: encoded

/-- Model of `parseProxyResourceURI`: try the template prefix first, then the
resource prefix; strip it, split once on `/`, require both halves non-empty,
hex-decode the second half. -/
def parseProxyResourceURI (uri : Str) : Option ResourceRoute :=
  let pick : Option (Str × Bool) :=
    if sw tplPfx uri then some (tplPfx, true)
    else if sw resPfx uri then some (resPfx, false)
    else none
  match pick with
  | none => none
  | some (pfx, template) =>
    match splitOnceChar '/' (uri.drop pfx.length) with
    | none => none
    | some (a, b) =>
      if a.isEmpty || b.isEmpty then none
      else match hexDecode b with
        | none => none
        | some bytes => some ⟨a, bytes, template⟩

lemma hexVal_hexDigit (d : Fin 16) : hexVal (hexDigit d) = some d := by
  revert d
  decide

lemma hexDecode_hexEncode (bs : List Byte) : hexDecode (hexEncode bs) = some bs := by
  induction bs with
  | nil => rfl
  | cons b bs ih =>
    simp only [hexEncode, hexDecode, hexVal_hexDigit, ih]
    congr 1
    congr 1
    apply Fin.ext
    simp only []
    have := Nat.div_add_mod b.val 16
    omega

lemma hexEncode_ne_nil (bs : List Byte) (h : bs ≠ []) : hexEncode bs ≠ [] := by
  cases bs with
  | nil => exact absurd rfl h
  | cons b bs => simp [hexEncode]

lemma sw_append_self (p r : Str) : sw p (p ++ r) = true := by
  induction p with
  | nil => rfl
  | cons c cs ih => simp [sw, ih]

lemma sw_append_both (a b c : Str) : sw (a ++ b) (a ++ c) = sw b c := by
  induction a with
  | nil => rfl
  | cons x xs ih => simp [sw, ih]

lemma sw_tpl_res (r : Str) : sw tplPfx (resPfx ++ r) = false := by
  have h1 : resPfx = "mcp-catalog://resource".toList ++ '/' :: [] := by decide
  have h2 : tplPfx = "mcp-catalog://resource".toList ++ '-' :: "template/".toList := by decide
  rw [h1, h2, List.append_assoc]
  rw [sw_append_both]
  simp [sw]

lemma splitOnceChar_exact (sep : Char) (n rest : Str) (h : sep ∉ n) :
    splitOnceChar sep (n ++ sep :: rest) = some (n, rest) := by
  induction n with
  | nil => simp [splitOnceChar]
  | cons c cs ih =>
    have hc : c ≠ sep := fun hc => h (by simp [hc])
    have hcs : sep ∉ cs := fun hm => h (List.mem_cons_of_mem _ hm)
    simp [splitOnceChar, hc, ih hcs]

/-- C2 (amended): the URI codec round-trips for every non-empty server name
without `/` and every non-empty original URI. -/
theorem parse_build_roundtrip (n : Str) (bs : List Byte) (t : Bool)
    (hn : n ≠ []) (hs : ('/' : Char) ∉ n) (hbs : bs ≠ []) :
    parseProxyResourceURI (buildProxyResourceURI n bs t) = some ⟨n, bs, t⟩ := by
  have hne : (hexEncode bs).isEmpty = false := by
    cases hbs' : hexEncode bs with
    | nil => exact absurd hbs' (hexEncode_ne_nil bs hbs)
    | cons a l => rfl
  have hnn : n.isEmpty = false := by
    cases n with
    | nil => exact absurd rfl hn
    | cons a l => rfl
  cases t with
  | true =>
    simp only [buildProxyResourceURI, parseProxyResourceURI, List.append_assoc, if_true]
    rw [sw_append_self]
    simp only [if_true]
    rw [List.drop_left, splitOnceChar_exact '/' n (hexEncode bs) hs]
    simp [hnn, hne, hexDecode_hexEncode]
  | false =>
    simp only [buildProxyResourceURI, parseProxyResourceURI, List.append_assoc,
      Bool.false_eq_true, if_false]
    rw [sw_tpl_res, sw_append_self]
    simp only [Bool.false_eq_true, if_false, if_true]
    rw [List.drop_left, splitOnceChar_exact '/' n (hexEncode bs) hs]
    simp [hnn, hne, hexDecode_hexEncode]

/-- C2 counterexample: the round trip fails as literally claimed.  With an
empty original URI (`s = ""`) the hex half of the built URI is empty and the
parser rejects it, and with an empty server name the first half is empty and
the parser rejects it as well. -/
theorem parse_build_roundtrip_cex :
    parseProxyResourceURI (buildProxyResourceURI ['a'] [] false) = none ∧
    parseProxyResourceURI (buildProxyResourceURI [] [(97 : Byte)] true) = none := by
  constructor
  · decide
  · decide

/-- C2 witness: the amended round trip at a concrete input. -/
theorem parse_build_roundtrip_witness :
    parseProxyResourceURI (buildProxyResourceURI "fs".toList [(102 : Byte)] false) =
      some ⟨"fs".toList, [(102 : Byte)], false⟩ :=
  parse_build_roundtrip "fs".toList [(102 : Byte)] false (by decide) (by decide) (by decide)

/-- The `"__"` separator of the proxied-name convention. -/
def sepUU : Str := ['_', '_']

/-- Model of Go `strings.SplitN(s, "__", 2)` restricted to the two-part case:
`none` when the separator does not occur (Go then returns a one-element
slice, which the callers reject), otherwise the text before the first
occurrence and the text after it. -/
def splitOnFirst (sep : Str) : Str → Option (Str × Str)
  | [] => if sw sep [] then some ([], []) else none
  | c :: cs =>
    if sw sep (c :: cs) then some ([], (c :: cs).drop sep.length)
    else (splitOnFirst sep cs).map (fun p => (c :: p.1, p.2))

/-- The source's `toolRoute`. -/
structure ToolRoute where
  serverName : Str
  toolName : Str
deriving Repr, DecidableEq

/-- The proxy's per-session tool route maps: session id to proxied-name map. -/
abbrev SessState := List (Str × List (Str × ToolRoute))

/-- The session-map lookup performed at the top of `resolveToolRoute`:
`s.mcpState[sessionID]` followed by `ss.Tools[tool]`. -/
def sessionToolHit (state : SessState) (sessionID tool : Str) : Option ToolRoute :=
  match List.lookup sessionID state with
  | some routes => List.lookup tool routes
  | none => none

/-- Model of `resolveToolRoute`: session route map first, then the
naming-convention split on the first `"__"`. -/
def resolveToolRoute (state : SessState) (sessionID tool : Str) : Option ToolRoute :=
  match sessionToolHit state sessionID tool with
  | some r => some r
  | none =>
    match splitOnFirst sepUU tool with
    | none => none
    | some (a, b) => some ⟨a, b⟩

lemma sw_sepUU_cons_cons (c d : Char) (x : Str) :
    sw sepUU (c :: d :: x) = (('_' == c) && ('_' == d)) := by
  simp [sepUU, sw]

lemma splitOnFirst_cons (sep : Str) (c : Char) (cs : Str) :
    splitOnFirst sep (c :: cs) =
      if sw sep (c :: cs) then some ([], (c :: cs).drop sep.length)
      else (splitOnFirst sep cs).map (fun p => (c :: p.1, p.2)) := rfl

lemma splitOnFirst_exact (n t : Str)
    (h1 : splitOnFirst sepUU n = none) (h2 : n.getLast? ≠ some '_') :
    splitOnFirst sepUU (n ++ sepUU ++ t) = some (n, t) := by
  induction n with
  | nil =>
    show splitOnFirst sepUU ('_' :: '_' :: t) = some ([], t)
    rw [splitOnFirst_cons]
    simp [sepUU, sw]
  | cons c cs ih =>
    have hstep : (c :: cs) ++ sepUU ++ t = c :: (cs ++ sepUU ++ t) := by simp
    rw [hstep, splitOnFirst_cons]
    cases cs with
    | nil =>
      have hc : c ≠ '_' := fun hcc => h2 (by simp [hcc])
      have hg : sw sepUU (c :: ([] ++ sepUU ++ t)) = false := by
        show sw sepUU (c :: '_' :: '_' :: t) = false
        rw [sw_sepUU_cons_cons]
        simp only [beq_self_eq_true, Bool.and_true]
        exact beq_eq_false_iff_ne.mpr (Ne.symm hc)
      rw [hg]
      have hbase : splitOnFirst sepUU ([] ++ sepUU ++ t) = some ([], t) := by
        show splitOnFirst sepUU ('_' :: '_' :: t) = some ([], t)
        rw [splitOnFirst_cons]
        simp [sepUU, sw]
      have hbase' : splitOnFirst sepUU (sepUU ++ t) = some ([], t) := by simpa using hbase
      simp [hbase']
    | cons d cs' =>
      have hguard : sw sepUU (c :: d :: cs') = false := by
        cases hg : sw sepUU (c :: d :: cs') with
        | false => rfl
        | true =>
          rw [splitOnFirst_cons, hg] at h1
          simp at h1
      have hrec : splitOnFirst sepUU (d :: cs') = none := by
        rw [splitOnFirst_cons, hguard] at h1
        simpa using h1
      have h2' : (d :: cs').getLast? ≠ some '_' := by
        intro hlast
        exact h2 (by rw [List.getLast?_cons_cons]; exact hlast)
      have hih := ih hrec h2'
      have hg2 : sw sepUU (c :: ((d :: cs') ++ sepUU ++ t)) = false := by
        have hre : (d :: cs') ++ sepUU ++ t = d :: (cs' ++ sepUU ++ t) := by simp
        rw [hre, sw_sepUU_cons_cons]
        rw [sw_sepUU_cons_cons] at hguard
        exact hguard
      rw [hg2]
      have hih' : splitOnFirst sepUU (d :: (cs' ++ (sepUU ++ t))) = some (d :: cs', t) := by
        simpa using hih
      simp [hih']

/-- C3 (amended): with an empty session id (never a live session key, since
session ids are 32 hex characters), resolving `n ++ "__" ++ t` splits on the
first `"__"` and yields `(n, t)`, provided `n` itself contains no `"__"` and
does not end in `'_'`. -/
theorem resolve_split_first (state : SessState) (n t : Str)
    (hempty : List.lookup ([] : Str) state = none)
    (h1 : splitOnFirst sepUU n = none) (h2 : n.getLast? ≠ some '_') :
    resolveToolRoute state [] (n ++ sepUU ++ t) = some ⟨n, t⟩ := by
  unfold resolveToolRoute sessionToolHit
  rw [hempty, splitOnFirst_exact n t h1 h2]

/-- C3 counterexample: for `n = "a_"` and `t = "b"` the proxied name is
`"a___b"`, whose first `"__"` occurrence starts inside `n`, so resolution
yields `("a", "_b")`, not `("a_", "b")` as the claim states. -/
theorem resolve_split_first_cex :
    "a_".toList ++ sepUU ++ "b".toList = "a___b".toList ∧
    resolveToolRoute [] [] "a___b".toList = some ⟨"a".toList, "_b".toList⟩ ∧
    resolveToolRoute [] [] "a___b".toList ≠ some ⟨"a_".toList, "b".toList⟩ :=
  ⟨by decide, by decide, by decide⟩

/-- C3 witness: the amended statement at the spec's scenario `srv__do`. -/
theorem resolve_split_first_witness :
    resolveToolRoute [] [] ("srv".toList ++ sepUU ++ "do".toList) =
      some ⟨"srv".toList, "do".toList⟩ :=
  resolve_split_first [] "srv".toList "do".toList (by decide) (by decide) (by decide)

/-- The source's `config.MCPServer`; Go's `map[string]string` env is an
association list. -/
structure MCPServer where
  type : String
  url : String
  command : String
  args : List String
  env : List (String × String)
  enabled : Bool
deriving Repr, DecidableEq

/-- Model of Go `%q` escaping (`strconv.Quote`) restricted to the escapes
relevant here: quote and backslash; other printable characters are kept.
(Control and non-ASCII escaping of the Go stdlib is not modelled.) -/
def goEscape : Str → Str
  | [] => []
  | c :: cs => (if c = '"' ∨ c = '\\' then ['\\', c] else [c]) ++ goEscape cs

/-- Go `%q`: the escaped text wrapped in double quotes. -/
def goQuote (s : Str) : Str := '"' :: (goEscape s ++ ['"'])

/-- The `server %q not found` message produced by `callTool` when
`store.GetServer` misses. -/
def serverNotFoundMsg (s : Str) : Str :=
  "server ".toList ++ goQuote s ++ " not found".toList

/-- Outcome of the proxy's tools/call handling up to the downstream forward:
either a JSON-RPC error is written, or the call is forwarded to the resolved
downstream with the original tool name (`forwardMCP` is beyond this model). -/
inductive CallFlowResult
  | rpcError (code : Int) (message : Str)
  | forwarded (serverName toolName : Str)
deriving Repr, DecidableEq

/-- The tools/call path of `handleMCPProxy` combined with `callTool`:
resolve the route (session map, then naming convention); a resolution miss
writes `-32601 "tool not found"`; a missing server in the registry makes
`callTool` fail and the handler writes `-32000` with `callTool`'s message;
otherwise the call is forwarded. -/
def toolsCallFlow (state : SessState) (sessionID : Str)
    (store : List (Str × MCPServer)) (name : Str) : CallFlowResult :=
  match resolveToolRoute state sessionID name with
  | none => .rpcError (-32601) "tool not found".toList
  | some route =>
    match List.lookup route.serverName store with
    | none => .rpcError (-32000) (serverNotFoundMsg route.serverName)
    | some _ => .forwarded route.serverName route.toolName

/-- C10 (amended): for a name `n ++ "__" ++ t` with no session route, where
`n` contains no `"__"` and does not end in `'_'` and `n` is not a configured
server, resolution still succeeds by the naming convention (so no
`-32601 "tool not found"`), and the forwarding step fails with the
`-32000` error `server "n" not found`. -/
theorem tools_call_unknown_server (state : SessState) (sessionID : Str)
    (store : List (Str × MCPServer)) (n t : Str)
    (hmiss : sessionToolHit state sessionID (n ++ sepUU ++ t) = none)
    (h1 : splitOnFirst sepUU n = none) (h2 : n.getLast? ≠ some '_')
    (hstore : List.lookup n store = none) :
    toolsCallFlow state sessionID store (n ++ sepUU ++ t) =
      .rpcError (-32000) (serverNotFoundMsg n) := by
  have hr : resolveToolRoute state sessionID (n ++ sepUU ++ t) = some ⟨n, t⟩ := by
    unfold resolveToolRoute
    rw [hmiss, splitOnFirst_exact n t h1 h2]
  unfold toolsCallFlow
  rw [hr]
  simp [hstore]

/-- A concrete stdio server used in counterexamples and witnesses. -/
def srvStdioA : MCPServer := ⟨"", "", "run-a", [], [], true⟩

/-- C10 counterexample: with `s = "a_"`, `t = "b"` and a configured server
`"a"`, the name `"a___b"` resolves to `("a", "_b")` and is forwarded to the
configured server `"a"`; the client does not receive the claimed `-32000`
error naming `"a_"`. -/
theorem tools_call_unknown_server_cex :
    toolsCallFlow [] [] [("a".toList, srvStdioA)] "a___b".toList =
      .forwarded "a".toList "_b".toList ∧
    toolsCallFlow [] [] [("a".toList, srvStdioA)] "a___b".toList ≠
      .rpcError (-32000) (serverNotFoundMsg "a_".toList) :=
  ⟨by decide, by decide⟩

/-- C10 witness: the amended statement at a concrete input. -/
theorem tools_call_unknown_server_witness :
    toolsCallFlow [] [] [] ("srv".toList ++ sepUU ++ "do".toList) =
      .rpcError (-32000) (serverNotFoundMsg "srv".toList) :=
  tools_call_unknown_server [] [] [] "srv".toList "do".toList
    (by decide) (by decide) (by decide) (by decide)

/-- The source's `rpcErr`. -/
structure RpcErr where
  code : Int
  message : String
deriving Repr, DecidableEq

/-- The source's `rpcResp`; `Result` (an opaque `json.RawMessage`) is kept as
an optional raw string, `none` standing for Go's nil slice. -/
structure RpcResp where
  jsonrpc : String
  id : Int
  result : Option String
  error : Option RpcErr
deriving Repr, DecidableEq

/-- The filter inside `decodeProxyResponse`'s `add` closure: a decoded value
is kept as a candidate unless all of jsonrpc, result and error are zero. -/
def isCandidate (v : RpcResp) : Bool :=
  !(v.jsonrpc == "" && v.result == none && v.error == none)

/-- One SSE `data:` frame: the `[DONE]` sentinel, or a JSON object, or a
JSON array of objects.  (Empty payloads behave like `done`: skipped.) -/
inductive SSEFrame
  | done
  | obj (r : RpcResp)
  | arr (rs : List RpcResp)
deriving Repr, DecidableEq

/-- The three wire shapes accepted by the decoder, structurally.  In the
source the three parses are attempted on the same raw bytes; a body of one
shape fails the other two parses (an object is not an array, neither
contains `data:` lines, and SSE text is not valid JSON), so candidates come
from exactly one shape. -/
inductive Body
  | single (r : RpcResp)
  | batch (rs : List RpcResp)
  | sse (frames : List SSEFrame)
deriving Repr, DecidableEq

/-- Candidates contributed by one SSE frame (object parse first, then array
parse, `[DONE]` skipped), filtered by `add`. -/
def frameCandidates : SSEFrame → List RpcResp
  | .done => []
  | .obj r => if isCandidate r then [r] else []
  | .arr rs => rs.filter isCandidate

/-- Candidates contributed by a list of SSE frames, in order. -/
def framesCandidates : List SSEFrame → List RpcResp
  | [] => []
  | f :: fs => frameCandidates f ++ framesCandidates fs

/-- The candidate list accumulated by `decodeProxyResponse`. -/
def bodyCandidates : Body → List RpcResp
  | .single r => if isCandidate r then [r] else []
  | .batch rs => rs.filter isCandidate
  | .sse frames => framesCandidates frames

/-- Model of `decodeProxyResponse`: accumulate candidates; with a positive
expected id return the first candidate carrying it or the
`response id=N not found` error; otherwise return the first candidate.
(The raw body text interpolated into the `unable to decode` message is not
carried by the structural body.) -/
def decodeProxyResponse (body : Body) (expectedID : Int) : Except String RpcResp :=
  match bodyCandidates body with
  | [] => .error "unable to decode response"
  | c :: cs =>
    if expectedID > 0 then
      match (c :: cs).find? (fun v => v.id == expectedID) with
      | some v => .ok v
      | none => .error ("response id=" ++ toString expectedID ++ " not found")
    else .ok c

/-- A well-shaped SSE frame: a sentinel, a genuine response object, or a
non-empty array of genuine response objects. -/
def goodFrame : SSEFrame → Bool
  | .done => true
  | .obj r => isCandidate r
  | .arr rs => !rs.isEmpty && rs.all isCandidate

/-- Frames other than the `[DONE]` sentinel. -/
def isDataFrame : SSEFrame → Bool
  | .done => false
  | .obj _ => true
  | .arr _ => true

/-- A body of one of the three accepted shapes: a genuine response object, a
non-empty batch of genuine response objects, or SSE frames that are all
well-shaped with at least one non-sentinel frame. -/
def wellFormedBody : Body → Bool
  | .single r => isCandidate r
  | .batch rs => !rs.isEmpty && rs.all isCandidate
  | .sse frames => frames.all goodFrame && frames.any isDataFrame

lemma filter_isCandidate_ne_nil (rs : List RpcResp)
    (hne : rs.isEmpty = false) (hall : rs.all isCandidate = true) :
    rs.filter isCandidate ≠ [] := by
  cases rs with
  | nil => simp at hne
  | cons r rest =>
    have hr : isCandidate r = true := by
      have := (List.all_eq_true.mp hall) r (by simp)
      simpa using this
    simp [List.filter, hr]

lemma framesCandidates_ne_nil (frames : List SSEFrame)
    (hall : frames.all goodFrame = true) (hany : frames.any isDataFrame = true) :
    framesCandidates frames ≠ [] := by
  induction frames with
  | nil => simp at hany
  | cons f fs ih =>
    simp only [List.all_cons, Bool.and_eq_true] at hall
    simp only [List.any_cons, Bool.or_eq_true] at hany
    cases hdf : isDataFrame f with
    | true =>
      have hfc : frameCandidates f ≠ [] := by
        cases f with
        | done => simp [isDataFrame] at hdf
        | obj r =>
          have : isCandidate r = true := by simpa [goodFrame] using hall.1
          simp [frameCandidates, this]
        | arr rs =>
          have h1 : rs.isEmpty = false := by
            have := hall.1
            simp only [goodFrame, Bool.and_eq_true] at this
            simpa using this.1
          have h2 : rs.all isCandidate = true := by
            have := hall.1
            simp only [goodFrame, Bool.and_eq_true] at this
            exact this.2
          simpa [frameCandidates] using filter_isCandidate_ne_nil rs h1 h2
      simp only [framesCandidates]
      intro hcontra
      exact hfc (List.append_eq_nil.mp hcontra).1
    | false =>
      have hany' : fs.any isDataFrame = true := by
        rcases hany with h | h
        · rw [hdf] at h
          simp at h
        · exact h
      have := ih hall.2 hany'
      simp only [framesCandidates]
      intro hcontra
      exact this (List.append_eq_nil.mp hcontra).2

lemma wellFormed_candidates_ne_nil (b : Body) (h : wellFormedBody b = true) :
    bodyCandidates b ≠ [] := by
  cases b with
  | single r =>
    simp only [wellFormedBody] at h
    simp [bodyCandidates, h]
  | batch rs =>
    simp only [wellFormedBody, Bool.and_eq_true] at h
    have h1 : rs.isEmpty = false := by simpa using h.1
    exact filter_isCandidate_ne_nil rs h1 h.2
  | sse frames =>
    simp only [wellFormedBody, Bool.and_eq_true] at h
    exact framesCandidates_ne_nil frames h.1 h.2

/-- C1 (amended): for every body of one of the three accepted shapes, the
proxy's decoder `decodeProxyResponse` accumulates all candidates and
(a) returns a candidate whose id equals a requested positive id whenever
one is present, (b) returns the `response id=N not found` error when a
requested id is carried by no candidate, and (c) returns the first
candidate when no id was requested.  (The manager's `decodeHTTPMCPResponse`
does not select by id; see the counterexample.) -/
theorem decode_selects_requested_id (body : Body) (expectedID : Int)
    (hwf : wellFormedBody body = true) :
    (expectedID > 0 → ∀ r ∈ bodyCandidates body, r.id = expectedID →
        ∃ v ∈ bodyCandidates body,
          decodeProxyResponse body expectedID = .ok v ∧ v.id = expectedID) ∧
    (expectedID > 0 → (∀ r ∈ bodyCandidates body, r.id ≠ expectedID) →
        decodeProxyResponse body expectedID =
          .error ("response id=" ++ toString expectedID ++ " not found")) ∧
    (¬ expectedID > 0 →
        ∃ v, (bodyCandidates body).head? = some v ∧
          decodeProxyResponse body expectedID = .ok v) := by
  have hne := wellFormed_candidates_ne_nil body hwf
  rcases hcs : bodyCandidates body with _ | ⟨c, cs⟩
  · exact absurd hcs hne
  · refine ⟨?_, ?_, ?_⟩
    · intro hpos r hr hid
      have hex : ∃ x ∈ c :: cs, (fun v : RpcResp => v.id == expectedID) x = true :=
        ⟨r, hr, by simp [hid]⟩
      rcases hf : (c :: cs).find? (fun v => v.id == expectedID) with _ | v
      · rw [List.find?_eq_none] at hf
        rcases hex with ⟨x, hx, hpx⟩
        exact absurd hpx (by simpa using hf x hx)
      · refine ⟨v, List.mem_of_find?_eq_some hf, ?_, ?_⟩
        · simp only [decodeProxyResponse, hcs, if_pos hpos, hf]
        · have := List.find?_some hf
          simpa using this
    · intro hpos hall
      have hf : (c :: cs).find? (fun v => v.id == expectedID) = none := by
        rw [List.find?_eq_none]
        intro x hx
        have := hall x hx
        simpa using this
      simp only [decodeProxyResponse, hcs, if_pos hpos, hf]
    · intro hneg
      refine ⟨c, rfl, ?_⟩
      simp only [decodeProxyResponse, hcs, if_neg hneg]

/-- First SSE `data:` frame whose payload parses as a single response
object (array payloads do not unmarshal into the struct and are skipped),
as in the manager's SSE fallback loop. -/
def firstFrameObj : List SSEFrame → Except String RpcResp
  | [] => .error "unable to decode MCP response"
  | .done :: fs => firstFrameObj fs
  | .obj r :: _ => .ok r
  | .arr _ :: fs => firstFrameObj fs

/-- Model of the manager's `decodeHTTPMCPResponse`: a single object (kept
only when some field is non-zero), else the FIRST element of a non-empty
batch, else the first SSE object frame — with no id selection at all. -/
def decodeHTTPMCPResponse (body : Body) : Except String RpcResp :=
  match body with
  | .single r => if isCandidate r then .ok r else .error "unable to decode MCP response"
  | .batch rs =>
    match rs with
    | [] => .error "unable to decode MCP response"
    | r :: _ => .ok r
  | .sse frames => firstFrameObj frames

/-- C1 counterexample: the health manager's decoder (cited by the claim) is
id-blind.  Checking tools/list requests id 2, yet on a batch carrying ids 1
and 2 the decoder returns the id 1 entry, not the candidate with the
requested id. -/
theorem decode_selects_requested_id_cex :
    decodeHTTPMCPResponse
        (Body.batch [⟨"2.0", 1, some "r1", none⟩, ⟨"2.0", 2, some "r2", none⟩]) =
      .ok ⟨"2.0", 1, some "r1", none⟩ ∧
    (⟨"2.0", 1, some "r1", none⟩ : RpcResp).id ≠ 2 :=
  ⟨rfl, by decide⟩

/-- C1 witness: the spec's SSE scenario, a `data:` object frame with id 2
followed by a `data: [DONE]` sentinel, requested id 2. -/
theorem decode_selects_requested_id_witness :
    ∃ v ∈ bodyCandidates (Body.sse [.obj ⟨"2.0", 2, some "ok-result", none⟩, .done]),
      decodeProxyResponse (Body.sse [.obj ⟨"2.0", 2, some "ok-result", none⟩, .done]) 2 =
        .ok v ∧ v.id = 2 :=
  (decode_selects_requested_id (Body.sse [.obj ⟨"2.0", 2, some "ok-result", none⟩, .done]) 2
      (by decide)).1 (by decide) ⟨"2.0", 2, some "ok-result", none⟩ (by decide) (by decide)

/-- ASCII model of the character class trimmed by Go `strings.TrimSpace`. -/
def goSpace (c : Char) : Bool :=
  c == ' ' || c == '\t' || c == '\n' || c == '\x0b' || c == '\x0c' || c == '\r'

/-- Model of Go `strings.TrimSpace` (ASCII whitespace). -/
def trimSpace (s : String) : String :=
  String.mk (((s.data.dropWhile goSpace).reverse.dropWhile goSpace).reverse)

/-- The source's `rpcReq` as decoded from the POST body; `Params` stays an
opaque optional raw string. -/
structure RpcReqIn where
  jsonrpc : String
  id : Int
  method : String
  params : Option String
deriving Repr, DecidableEq

/-- The downstream work a request proceeds to after passing its guards.
Aggregation and forwarding themselves are beyond this handler model. -/
inductive ProxyAction
  | initReq
  | toolsList
  | toolsCall
  | promptsList
  | promptsGet
  | resourcesList
  | resourcesTemplatesList
  | resourcesRead
deriving Repr, DecidableEq

/-- What `handleMCPProxy` writes before any downstream work happens.
`writeRPCError` encodes the JSON-RPC error body without ever calling
`WriteHeader`, so net/http sends HTTP status 200 for every `rpcError`. -/
inductive ProxyOutcome
  | httpError (status : Nat) (message : String)
  | rpcError (status : Nat) (id : Int) (code : Int) (message : String)
  | noContent (status : Nat)
  | proceed (act : ProxyAction)
deriving Repr, DecidableEq

/-- `s.hasSession`: membership of the id among live sessions. -/
def hasSession (sessions : List String) (sessionID : String) : Bool :=
  sessions.contains sessionID

/-- Model of `handleMCPProxy` (with `handleMCPDelete`): method dispatch,
body decode, and the per-method session guard, mirroring the source's
switch; handling after a passed guard is abstracted as `proceed`. -/
def handleMCPProxy (httpMethod : String) (header : String)
    (body : Except String RpcReqIn) (sessions : List String) : ProxyOutcome :=
  if httpMethod == "DELETE" then
    if trimSpace header == "" then .httpError 400 "missing MCP-Session-Id"
    else .noContent 204
  else if httpMethod == "POST" then
    match body with
    | .error e => .httpError 400 e
    | .ok req =>
      let sessionID := trimSpace header
      let invalid := sessionID == "" || !hasSession sessions sessionID
      match req.method with
      | "initialize" => .proceed .initReq
      | "notifications/initialized" =>
        if invalid then .rpcError 200 req.id (-32000) "missing or invalid MCP session"
        else .noContent 204
      | "tools/list" =>
        if invalid then .rpcError 200 req.id (-32000) "missing or invalid MCP session"
        else .proceed .toolsList
      | "tools/call" =>
        if invalid then .rpcError 200 req.id (-32000) "missing or invalid MCP session"
        else .proceed .toolsCall
      | "prompts/list" =>
        if invalid then .rpcError 200 req.id (-32000) "missing or invalid MCP session"
        else .proceed .promptsList
      | "prompts/get" =>
        if invalid then .rpcError 200 req.id (-32000) "missing or invalid MCP session"
        else .proceed .promptsGet
      | "resources/list" =>
        if invalid then .rpcError 200 req.id (-32000) "missing or invalid MCP session"
        else .proceed .resourcesList
      | "resources/templates/list" =>
        if invalid then .rpcError 200 req.id (-32000) "missing or invalid MCP session"
        else .proceed .resourcesTemplatesList
      | "resources/read" =>
        if invalid then .rpcError 200 req.id (-32000) "missing or invalid MCP session"
        else .proceed .resourcesRead
      | _ => .rpcError 200 req.id (-32601) "method not found"
  else .httpError 405 "method not allowed"

/-- The eight methods whose handlers check the session before any work. -/
def sessionGuardedMethods : List String :=
  ["notifications/initialized", "tools/list", "tools/call", "prompts/list",
   "prompts/get", "resources/list", "resources/templates/list", "resources/read"]

/-- C9 (amended): for the eight session-guarded methods, a missing or
non-live `MCP-Session-Id` yields the JSON-RPC error `-32000` with message
`missing or invalid MCP session`, written with HTTP status 200 (the handler
never sets a 4xx status on this path). -/
theorem session_guard_rpc_error (header : String) (req : RpcReqIn) (sessions : List String)
    (hm : req.method ∈ sessionGuardedMethods)
    (hsess : trimSpace header = "" ∨ sessions.contains (trimSpace header) = false) :
    handleMCPProxy "POST" header (.ok req) sessions =
      .rpcError 200 req.id (-32000) "missing or invalid MCP session" := by
  have hinv : (trimSpace header == "" || !hasSession sessions (trimSpace header)) = true := by
    rcases hsess with h | h
    · simp [h]
    · simp only [hasSession, h]
      simp
  obtain ⟨j, i, m, p⟩ := req
  simp only [sessionGuardedMethods, List.mem_cons, List.not_mem_nil, or_false] at hm
  rcases hm with h | h | h | h | h | h | h | h <;>
    (subst h; simp [handleMCPProxy, hinv])

/-- C9 counterexample: the claim's HTTP status 400 does not happen (the
error body goes out with status 200), and a request with an unknown method
and no session bypasses the session guard entirely, answering `-32601`
rather than `-32000`. -/
theorem session_guard_rpc_error_cex :
    handleMCPProxy "POST" "" (.ok ⟨"2.0", 3, "tools/list", none⟩) [] =
      .rpcError 200 3 (-32000) "missing or invalid MCP session" ∧
    handleMCPProxy "POST" "" (.ok ⟨"2.0", 4, "nosuch/method", none⟩) [] =
      .rpcError 200 4 (-32601) "method not found" :=
  ⟨by decide, by decide⟩

/-- C9 witness: the amended statement at a concrete input. -/
theorem session_guard_rpc_error_witness :
    handleMCPProxy "POST" "" (.ok ⟨"2.0", 7, "resources/read", none⟩) [] =
      .rpcError 200 7 (-32000) "missing or invalid MCP session" :=
  session_guard_rpc_error "" ⟨"2.0", 7, "resources/read", none⟩ []
    (by decide) (Or.inl (by decide))

/-- A heap of backing arrays for Go `[]string` slices: a slice header holds
an index into this heap, and copying a struct copies the header, not the
array. -/
structure GoHeap where
  cells : List (List String)
deriving Repr, DecidableEq

/-- An `MCPServer` value as laid out in Go memory: `Args` is a slice header
referencing a heap cell (the `Env` map reference behaves identically and is
not repeated here). -/
structure MCPServerVal where
  command : String
  argsRef : Nat
  enabled : Bool
deriving Repr, DecidableEq

/-- The registry's `config.MCPServers` content: name to stored server value. -/
abbrev RegistryState := List (String × MCPServerVal)

/-- Model of `Store.GetServer`: `cp := *srv; return &cp` is a struct copy,
so the returned record carries the same `argsRef` as the stored one. -/
def storeGetServer (st : RegistryState) (name : String) : Option MCPServerVal :=
  List.lookup name st

/-- Dereference a slice through the heap. -/
def heapRead (h : GoHeap) (ref : Nat) : List String :=
  h.cells.getD ref []

/-- A caller writing `slice[i] = v` through a slice header. -/
def heapWrite (h : GoHeap) (ref i : Nat) (v : String) : GoHeap :=
  ⟨h.cells.set ref ((h.cells.getD ref []).set i v)⟩

/-- What a later reader observes through the registry for `name`'s args. -/
def observedArgs (st : RegistryState) (h : GoHeap) (name : String) : Option (List String) :=
  (storeGetServer st name).map (fun s => heapRead h s.argsRef)

/-- C4 exhibits the code's behaviour at the failing input: the value
returned by `GetServer` shares its `Args` backing array with the stored
configuration, so writing `got.Args[0] = "y"` changes what the registry
subsequently reports — the claimed isolation does not hold. -/
theorem registry_shallow_copy_shares_args :
    ∃ srv, storeGetServer [("a", ⟨"run", 0, true⟩)] "a" = some srv ∧
      observedArgs [("a", ⟨"run", 0, true⟩)] (⟨[["x"]]⟩ : GoHeap) "a" = some ["x"] ∧
      observedArgs [("a", ⟨"run", 0, true⟩)]
        (heapWrite (⟨[["x"]]⟩ : GoHeap) srv.argsRef 0 "y") "a" = some ["y"] :=
  ⟨⟨"run", 0, true⟩, by decide, by decide, by decide⟩

/-- Go channel semantics: `close` on an already-closed channel panics. -/
def closeChan (alreadyClosed : Bool) : Except String Bool :=
  if alreadyClosed then .error "close of closed channel" else .ok true

/-- The `stopHealth` channel state of a `Manager`. -/
structure ManagerChanState where
  stopHealthClosed : Bool
deriving Repr, DecidableEq

/-- Model of `Manager.StopHealthLoop`: unconditionally `close(m.stopHealth)`. -/
def stopHealthLoop (m : ManagerChanState) : Except String ManagerChanState :=
  match closeChan m.stopHealthClosed with
  | .error e => .error e
  | .ok _ => .ok ⟨true⟩

/-- C5 exhibits the code's behaviour: the first call closes the channel
(signalling termination once), but a second call panics with
`close of closed channel` instead of being a safe no-op. -/
theorem stop_health_loop_second_call_panics :
    stopHealthLoop ⟨false⟩ = .ok ⟨true⟩ ∧
    stopHealthLoop ⟨true⟩ = .error "close of closed channel" :=
  ⟨rfl, rfl⟩

/-- The four server states of the manager. -/
inductive ServerStatus
  | unchecked
  | checking
  | healthy
  | error
deriving Repr, DecidableEq

/-- The source's `LogEntry`; wall-clock time is an abstract tick. -/
structure LogEntry where
  time : Nat
  level : String
  message : String
deriving Repr, DecidableEq

/-- The source's `MCPTool`; the input schema stays opaque. -/
structure MCPTool where
  name : String
  description : String
  inputSchema : Option String
deriving Repr, DecidableEq

/-- The source's `ServerInfo`. -/
structure ServerInfo where
  name : String
  config : MCPServer
  status : ServerStatus
  error : String
  logs : List LogEntry
  tools : List MCPTool
  lastCheck : Option Nat
  serverName : String
  serverVersion : String
  protocolVersion : String
  checkDuration : Nat
deriving Repr, DecidableEq

/-- `maxLogEntries` of the source. -/
def maxLogEntries : Nat := 500

/-- Model of `Manager.addLog`: append, then keep only the newest
`maxLogEntries` entries when the list has grown beyond the cap. -/
def addLog (info : ServerInfo) (now : Nat) (level msg : String) : ServerInfo :=
  let logs := info.logs ++ [⟨now, level, msg⟩]
  { info with
    logs := if maxLogEntries < logs.length then logs.drop (logs.length - maxLogEntries) else logs }

/-- `addLog` on an info paired with the trace of entries appended so far
(the trace only instruments the run; the info changes exactly as in
`addLog`). -/
def logTo (s : ServerInfo × List LogEntry) (now : Nat) (level msg : String) :
    ServerInfo × List LogEntry :=
  (addLog s.1 now level msg, s.2 ++ [⟨now, level, msg⟩])

/-- Outcome of parsing the downstream's initialize reply: the line is not
JSON, the envelope carries an `error`, or success with the optional
handshake metadata (name, version, protocol; `none` when the result does
not unmarshal). -/
inductive InitParse
  | badJSON (msg : String)
  | rpcErr (msg : String)
  | ok (meta : Option (String × String × String))
deriving Repr, DecidableEq

/-- Outcome of parsing the downstream's tools/list reply. -/
inductive ToolsParse
  | badJSON (msg : String)
  | rpcErr (msg : String)
  | badResult (msg : String)
  | ok (tools : List MCPTool)
deriving Repr, DecidableEq

/-- Everything the stdio environment decides during one `doCheck`: pipe and
spawn failures, I/O failures, and the parse outcomes of the two replies.
JSON parsing and the OS are external to the embedding; the control flow
over these outcomes is the source's. -/
structure StdioBehavior where
  stdinPipeErr : Option String
  stdoutPipeErr : Option String
  stderrPipeErr : Option String
  startErr : Option String
  pid : Nat
  sendInitErr : Option String
  readInitErr : Option String
  parsedInit : InitParse
  sendToolsErr : Option String
  readToolsErr : Option String
  parsedTools : ToolsParse
  elapsed : Nat
deriving Repr, DecidableEq

/-- Outcome of the HTTP initialize step (`send` covers transport, non-2xx
status, body read and decode failures, as in the closure). -/
inductive HTTPInitStep
  | sendErr (msg : String)
  | rpcErr (msg : String)
  | ok (meta : Option (String × String × String))
deriving Repr, DecidableEq

/-- Outcome of the HTTP tools/list step. -/
inductive HTTPToolsStep
  | sendErr (msg : String)
  | rpcErr (msg : String)
  | badResult (msg : String)
  | ok (tools : List MCPTool)
deriving Repr, DecidableEq

/-- Everything the HTTP environment decides during one `doCheck`. -/
structure HTTPBehavior where
  initStep : HTTPInitStep
  notifErr : Option String
  toolsStep : HTTPToolsStep
  elapsed : Nat
deriving Repr, DecidableEq

/-- The downstream environment for a check over either transport. -/
structure DownstreamBehavior where
  stdio : StdioBehavior
  http : HTTPBehavior
deriving Repr, DecidableEq

/-- Result of `doCheck`: the returned error (if any), the mutated info, and
the trace of log entries appended during the run. -/
structure DoCheckOut where
  res : Option String
  info : ServerInfo
  logged : List LogEntry
deriving Repr

/-- ASCII lower-casing of one character. -/
def lowerAscii (c : Char) : Char :=
  if 'A' ≤ c ∧ c ≤ 'Z' then Char.ofNat (c.toNat + 32) else c

/-- ASCII lower-casing of a string. -/
def toLowerS (s : String) : String := String.mk (s.data.map lowerAscii)

/-- Model of Go `strings.EqualFold` (ASCII simple fold). -/
def eqFold (a c : String) : Bool := toLowerS a == toLowerS c

/-- Model of `isStreamableHTTPServer` (the nil-receiver case does not arise
for a present value). -/
def isStreamableHTTPServer (srv : MCPServer) : Bool :=
  eqFold (trimSpace srv.type) "streamableHttp" ||
    (trimSpace srv.url != "" && trimSpace srv.command == "")

/-- Model of `Manager.doCheck` for a stdio server, following the source's
control flow step by step; all failures up to the initialize reply return an
error, every tools/list failure logs a warning and returns success. -/
def doCheckStdio (srv : MCPServer) (b : StdioBehavior) (now : Nat) (info0 : ServerInfo) :
    DoCheckOut :=
  let s0 : ServerInfo × List LogEntry := (info0, [])
  if srv.command = "" then
    let s := logTo s0 now "error" "missing command for stdio server"
    ⟨some "missing command for stdio server", s.1, s.2⟩
  else
    match b.stdinPipeErr with
    | some m =>
      let s := logTo s0 now "error" ("stdin pipe: " ++ m)
      ⟨some ("stdin pipe: " ++ m), s.1, s.2⟩
    | none =>
    match b.stdoutPipeErr with
    | some m =>
      let s := logTo s0 now "error" ("stdout pipe: " ++ m)
      ⟨some ("stdout pipe: " ++ m), s.1, s.2⟩
    | none =>
    match b.stderrPipeErr with
    | some m =>
      let s := logTo s0 now "error" ("stderr pipe: " ++ m)
      ⟨some ("stderr pipe: " ++ m), s.1, s.2⟩
    | none =>
    match b.startErr with
    | some m =>
      let s1 := (({ info0 with checkDuration := b.elapsed } : ServerInfo), ([] : List LogEntry))
      let s := logTo s1 now "error" ("Failed to start: " ++ m)
      ⟨some ("start: " ++ m), s.1, s.2⟩
    | none =>
    let s1 := logTo s0 now "info" ("Started with PID " ++ toString b.pid)
    match b.sendInitErr with
    | some m =>
      let s := logTo s1 now "error" ("Failed to send initialize: " ++ m)
      ⟨some ("send initialize: " ++ m), s.1, s.2⟩
    | none =>
    match b.readInitErr with
    | some m =>
      let s := logTo s1 now "error" ("Failed to read initialize response: " ++ m)
      ⟨some ("read initialize response: " ++ m), s.1, s.2⟩
    | none =>
    match b.parsedInit with
    | .badJSON m =>
      let s := logTo s1 now "error" ("Invalid initialize response: " ++ m)
      ⟨some ("parse initialize response: " ++ m), s.1, s.2⟩
    | .rpcErr m =>
      let s2 := (({ s1.1 with checkDuration := b.elapsed } : ServerInfo), s1.2)
      let s := logTo s2 now "error" ("Initialize error: " ++ m)
      ⟨some ("initialize: " ++ m), s.1, s.2⟩
    | .ok meta =>
      let infoM :=
        match meta with
        | some (n, v, p) =>
          { s1.1 with serverName := n, serverVersion := v, protocolVersion := p }
        | none => s1.1
      let s2 := logTo (infoM, s1.2) now "info"
        ("MCP initialized: " ++ infoM.serverName ++ " " ++ infoM.serverVersion ++
          " (protocol " ++ infoM.protocolVersion ++ ")")
      match b.sendToolsErr with
      | some m =>
        let s := logTo s2 now "warn" ("Failed to send tools/list: " ++ m)
        ⟨none, s.1, s.2⟩
      | none =>
      match b.readToolsErr with
      | some m =>
        let s := logTo s2 now "warn" ("Failed to read tools/list response: " ++ m)
        ⟨none, s.1, s.2⟩
      | none =>
      let s3 :=
        match b.parsedTools with
        | .badJSON m => logTo s2 now "warn" ("Invalid tools/list response: " ++ m)
        | .rpcErr m => logTo s2 now "warn" ("tools/list error: " ++ m)
        | .badResult m => logTo s2 now "warn" ("Failed to parse tools: " ++ m)
        | .ok tools =>
          logTo (({ s2.1 with tools := tools } : ServerInfo), s2.2) now "info"
            ("Discovered " ++ toString tools.length ++ " tools")
      let s4 := logTo (({ s3.1 with checkDuration := b.elapsed } : ServerInfo), s3.2) now "info"
        ("Check completed in " ++ toString b.elapsed ++ "ms, process stopped")
      ⟨none, s4.1, s4.2⟩

/-- The tail of `doCheckStreamableHTTP`: record the duration and the
completion line, then return success. -/
def finishHTTP (b : HTTPBehavior) (s : ServerInfo × List LogEntry) (now : Nat) : DoCheckOut :=
  let s5 := logTo (({ s.1 with checkDuration := b.elapsed } : ServerInfo), s.2) now "info"
    ("Check completed in " ++ toString b.elapsed ++ "ms")
  ⟨none, s5.1, s5.2⟩

/-- Model of `Manager.doCheckStreamableHTTP`, following the source's control
flow; initialize failures return an error, tools/list failures log a
warning and return success. -/
def doCheckHTTP (srv : MCPServer) (b : HTTPBehavior) (now : Nat) (info0 : ServerInfo) :
    DoCheckOut :=
  if srv.url = "" then
    let s := logTo (info0, []) now "error" "missing url for streamableHttp server"
    ⟨some "missing url for streamableHttp server", s.1, s.2⟩
  else
    let s1 := logTo (info0, []) now "info" ("Connecting via streamable HTTP: " ++ srv.url)
    match b.initStep with
    | .sendErr m =>
      let s2 := (({ s1.1 with checkDuration := b.elapsed } : ServerInfo), s1.2)
      let s := logTo s2 now "error" ("Initialize request failed: " ++ m)
      ⟨some ("initialize request: " ++ m), s.1, s.2⟩
    | .rpcErr m =>
      let s2 := (({ s1.1 with checkDuration := b.elapsed } : ServerInfo), s1.2)
      let s := logTo s2 now "error" ("Initialize error: " ++ m)
      ⟨some ("initialize: " ++ m), s.1, s.2⟩
    | .ok meta =>
      let infoM :=
        match meta with
        | some (n, v, p) =>
          { s1.1 with serverName := n, serverVersion := v, protocolVersion := p }
        | none => s1.1
      let s2 := logTo (infoM, s1.2) now "info"
        ("MCP initialized: " ++ infoM.serverName ++ " " ++ infoM.serverVersion ++
          " (protocol " ++ infoM.protocolVersion ++ ")")
      let s3 :=
        match b.notifErr with
        | some m => logTo s2 now "warn" ("Failed to send initialized notification: " ++ m)
        | none => s2
      match b.toolsStep with
      | .sendErr m =>
        let s4 := (({ s3.1 with checkDuration := b.elapsed } : ServerInfo), s3.2)
        let s := logTo s4 now "warn" ("tools/list request failed: " ++ m)
        ⟨none, s.1, s.2⟩
      | .rpcErr m => finishHTTP b (logTo s3 now "warn" ("tools/list error: " ++ m)) now
      | .badResult m => finishHTTP b (logTo s3 now "warn" ("Failed to parse tools: " ++ m)) now
      | .ok tools =>
        finishHTTP b
          (logTo (({ s3.1 with tools := tools } : ServerInfo), s3.2) now "info"
            ("Discovered " ++ toString tools.length ++ " tools")) now

/-- Model of `Manager.doCheck`: dispatch on the transport. -/
def doCheck (srv : MCPServer) (b : DownstreamBehavior) (now : Nat) (info0 : ServerInfo) :
    DoCheckOut :=
  if isStreamableHTTPServer srv then doCheckHTTP srv b.http now info0
  else doCheckStdio srv b.stdio now info0

/-- Result of one `Manager.Check`: the returned error, the final info, the
statuses written (in order), the status at each subscriber notification (in
order), and the log entries appended. -/
structure CheckOut where
  err : Option String
  info : Option ServerInfo
  statusWrites : List ServerStatus
  notifies : List ServerStatus
  logged : List LogEntry
deriving Repr

/-- The info record created lazily by `getOrCreateInfo`. -/
def freshInfo (name : String) (srv : MCPServer) : ServerInfo :=
  ⟨name, srv, .unchecked, "", [], [], none, "", "", "", 0⟩

/-- The target description of the `Checking: …` log line. -/
def checkTarget (srv : MCPServer) : String :=
  let t0 := trimSpace (String.intercalate " " (srv.command :: srv.args))
  let t1 := if isStreamableHTTPServer srv then "streamableHttp " ++ srv.url else t0
  if t1 = "" then "(invalid config: no command/url)" else t1

/-- The final phase of `Manager.Check`, after `doCheck` returns: stamp
`lastCheck`, transition to `healthy` or `error` (storing the message), and
notify subscribers a second time. -/
def finishCheck (d : DoCheckOut) (pre : List LogEntry) (now : Nat) : CheckOut :=
  let finalStatus : ServerStatus :=
    match d.res with
    | some _ => ServerStatus.error
    | none => ServerStatus.healthy
  let infoF := { d.info with
    lastCheck := some now,
    status := finalStatus,
    error := match d.res with | some m => m | none => "" }
  ⟨d.res, some infoF, [ServerStatus.checking, finalStatus],
    [ServerStatus.checking, finalStatus], pre ++ d.logged⟩

/-- Model of `Manager.Check`: registry lookup; transition to `checking`
(clearing the error and refreshing the config snapshot), log the target and
notify; run `doCheck`; stamp `lastCheck` and transition to `healthy` or
`error` (storing the message) and notify again. -/
def check (name : String) (srvOpt : Option MCPServer) (existing : Option ServerInfo)
    (b : DownstreamBehavior) (now : Nat) : CheckOut :=
  match srvOpt with
  | none =>
    ⟨some ("server " ++ String.mk (goQuote name.data) ++ " not found"), existing, [], [], []⟩
  | some srv =>
    let info0 := match existing with | some i => i | none => freshInfo name srv
    let info1 := { info0 with status := ServerStatus.checking, error := "", config := srv }
    let s1 := logTo (info1, []) now "info" ("Checking: " ++ checkTarget srv)
    finishCheck (doCheck srv b now s1.1) s1.2 now

/-- Convert an appended triple (time, level, message) to a `LogEntry`. -/
def toLogEntry (e : Nat × String × String) : LogEntry := ⟨e.1, e.2.1, e.2.2⟩

/-- Appending a whole sequence of entries through `addLog`. -/
def applyLogs (info : ServerInfo) (entries : List (Nat × String × String)) : ServerInfo :=
  entries.foldl (fun i e => addLog i e.1 e.2.1 e.2.2) info

lemma addLog_length (info : ServerInfo) (t : Nat) (lv m : String) :
    (addLog info t lv m).logs.length = min (info.logs.length + 1) maxLogEntries := by
  simp only [addLog]
  split
  · rename_i h
    simp only [maxLogEntries, List.length_drop, List.length_append, List.length_cons,
      List.length_nil] at h ⊢
    omega
  · rename_i h
    simp only [maxLogEntries, List.length_append, List.length_cons, List.length_nil] at h ⊢
    omega

lemma getLast?_drop_of_lt {α : Type} (k : Nat) (l : List α) (h : k < l.length) :
    (l.drop k).getLast? = l.getLast? := by
  induction k generalizing l with
  | zero => simp
  | succ k ih =>
    cases l with
    | nil => simp at h
    | cons x xs =>
      simp only [List.drop_succ_cons]
      have hk : k < xs.length := by simpa using h
      rw [ih xs hk]
      cases xs with
      | nil => simp at hk
      | cons y ys => rw [List.getLast?_cons_cons]

lemma addLog_getLast? (info : ServerInfo) (t : Nat) (lv m : String) :
    (addLog info t lv m).logs.getLast? = some ⟨t, lv, m⟩ := by
  simp only [addLog]
  split
  · rename_i h
    rw [getLast?_drop_of_lt]
    · simp
    · simp only [maxLogEntries, List.length_append, List.length_cons, List.length_nil] at h ⊢
      omega
  · simp

lemma addLog_suffix (info : ServerInfo) (t : Nat) (lv m : String) :
    (addLog info t lv m).logs <:+ info.logs ++ [⟨t, lv, m⟩] := by
  simp only [addLog]
  split
  · exact List.drop_suffix _ _
  · exact List.suffix_refl _

lemma applyLogs_cons (info : ServerInfo) (e : Nat × String × String)
    (es : List (Nat × String × String)) :
    applyLogs info (e :: es) = applyLogs (addLog info e.1 e.2.1 e.2.2) es := rfl

lemma applyLogs_length_le (entries : List (Nat × String × String)) (info : ServerInfo)
    (h : info.logs.length ≤ maxLogEntries) :
    (applyLogs info entries).logs.length ≤ maxLogEntries := by
  induction entries generalizing info with
  | nil => simpa [applyLogs] using h
  | cons e es ih =>
    rw [applyLogs_cons]
    apply ih
    rw [addLog_length]
    exact Nat.min_le_right _ _

lemma applyLogs_getLast? (entries : List (Nat × String × String)) (info : ServerInfo)
    (hne : entries ≠ []) :
    (applyLogs info entries).logs.getLast? = entries.getLast?.map toLogEntry := by
  induction entries generalizing info with
  | nil => exact absurd rfl hne
  | cons e es ih =>
    cases es with
    | nil =>
      rw [applyLogs_cons]
      simp [applyLogs, addLog_getLast?, toLogEntry]
    | cons e2 es2 =>
      rw [applyLogs_cons]
      rw [ih (addLog info e.1 e.2.1 e.2.2) (by simp)]
      rw [List.getLast?_cons_cons]

lemma suffix_extend {α : Type} {a b : List α} (p : List α) (h : a <:+ b) : a <:+ p ++ b := by
  obtain ⟨q, hq⟩ := h
  exact ⟨p ++ q, by rw [List.append_assoc, hq]⟩

lemma applyLogs_suffix (entries : List (Nat × String × String)) (info : ServerInfo) :
    (applyLogs info entries).logs <:+ info.logs ++ entries.map toLogEntry := by
  induction entries generalizing info with
  | nil => simp [applyLogs]
  | cons e es ih =>
    rw [applyLogs_cons]
    have h1 := ih (addLog info e.1 e.2.1 e.2.2)
    obtain ⟨p, hp⟩ := addLog_suffix info e.1 e.2.1 e.2.2
    have hsplit : info.logs ++ (e :: es).map toLogEntry =
        p ++ ((addLog info e.1 e.2.1 e.2.2).logs ++ es.map toLogEntry) := by
      rw [← List.append_assoc, hp, List.map_cons, List.append_assoc]
      rfl
    rw [hsplit]
    exact suffix_extend p h1

/-- C8: after appending any non-empty sequence of entries, the log list
holds at most 500 entries, its last element is the most recently appended
entry, and it is a suffix of the untruncated history (so only the oldest
entries are dropped and the survivors keep their order). -/
theorem addLog_cap_and_order (info : ServerInfo) (entries : List (Nat × String × String))
    (hne : entries ≠ []) :
    (applyLogs info entries).logs.length ≤ maxLogEntries ∧
    (applyLogs info entries).logs.getLast? = entries.getLast?.map toLogEntry ∧
    (applyLogs info entries).logs <:+ info.logs ++ entries.map toLogEntry := by
  refine ⟨?_, applyLogs_getLast? entries info hne, applyLogs_suffix entries info⟩
  cases entries with
  | nil => exact absurd rfl hne
  | cons e es =>
    rw [applyLogs_cons]
    apply applyLogs_length_le
    rw [addLog_length]
    exact Nat.min_le_right _ _

/-- C8 witness: one appended entry on a fresh info. -/
theorem addLog_cap_and_order_witness :
    (applyLogs (freshInfo "s" srvStdioA) [(1, "info", "hello")]).logs.length ≤ maxLogEntries ∧
    (applyLogs (freshInfo "s" srvStdioA) [(1, "info", "hello")]).logs.getLast? =
      ([(1, "info", "hello")] : List (Nat × String × String)).getLast?.map toLogEntry ∧
    (applyLogs (freshInfo "s" srvStdioA) [(1, "info", "hello")]).logs <:+
      (freshInfo "s" srvStdioA).logs ++
        ([(1, "info", "hello")] : List (Nat × String × String)).map toLogEntry :=
  addLog_cap_and_order (freshInfo "s" srvStdioA) [(1, "info", "hello")] (by decide)

/-- A downstream behaviour where every step succeeds (the spec's healthy
echo-server scenario). -/
def allOkBehavior : DownstreamBehavior :=
  ⟨⟨none, none, none, none, 42, none, none, .ok (some ("echo", "0.1", "2024-11-05")),
    none, none, .ok [⟨"ping", "", none⟩], 7⟩,
   ⟨.ok (some ("echo", "0.1", "2024-11-05")), none, .ok [⟨"ping", "", none⟩], 7⟩⟩

lemma finishCheck_spec (d : DoCheckOut) (pre : List LogEntry) (now : Nat) :
    ∃ i, (finishCheck d pre now).info = some i ∧
      (finishCheck d pre now).statusWrites = [ServerStatus.checking, i.status] ∧
      (finishCheck d pre now).notifies = [ServerStatus.checking, i.status] ∧
      (i.status = ServerStatus.healthy ∨ i.status = ServerStatus.error) ∧
      ((finishCheck d pre now).err = none → i.status = ServerStatus.healthy ∧ i.error = "") ∧
      (∀ m, (finishCheck d pre now).err = some m →
        i.status = ServerStatus.error ∧ i.error = m) := by
  rcases d with ⟨res, dinfo, dlogged⟩
  cases res with
  | none =>
    exact ⟨_, rfl, rfl, rfl, Or.inl rfl, fun _ => ⟨rfl, rfl⟩,
      fun m hm => Option.noConfusion hm⟩
  | some m0 =>
    refine ⟨_, rfl, rfl, rfl, Or.inr rfl, fun h => Option.noConfusion h, fun m hm => ⟨rfl, ?_⟩⟩
    injection hm

/-- C7: for every `Check` of a server present in the registry, the status is
written exactly twice — first `checking`, then exactly one of `healthy` or
`error` (the error message stored in the error case) — and subscribers are
notified exactly twice, once after each transition, in that order. -/
theorem check_status_transitions (name : String) (srv : MCPServer)
    (existing : Option ServerInfo) (b : DownstreamBehavior) (now : Nat) :
    ∃ i, (check name (some srv) existing b now).info = some i ∧
      (check name (some srv) existing b now).statusWrites = [ServerStatus.checking, i.status] ∧
      (check name (some srv) existing b now).notifies = [ServerStatus.checking, i.status] ∧
      (i.status = ServerStatus.healthy ∨ i.status = ServerStatus.error) ∧
      ((check name (some srv) existing b now).err = none →
        i.status = ServerStatus.healthy ∧ i.error = "") ∧
      (∀ m, (check name (some srv) existing b now).err = some m →
        i.status = ServerStatus.error ∧ i.error = m) := by
  simp only [check]
  exact finishCheck_spec _ _ _

/-- C7 witness: a concrete stdio check with an all-success behaviour. -/
theorem check_status_transitions_witness :
    ∃ i, (check "echo" (some srvStdioA) none allOkBehavior 5).info = some i ∧
      (check "echo" (some srvStdioA) none allOkBehavior 5).statusWrites =
        [ServerStatus.checking, i.status] ∧
      (check "echo" (some srvStdioA) none allOkBehavior 5).notifies =
        [ServerStatus.checking, i.status] ∧
      (i.status = ServerStatus.healthy ∨ i.status = ServerStatus.error) ∧
      ((check "echo" (some srvStdioA) none allOkBehavior 5).err = none →
        i.status = ServerStatus.healthy ∧ i.error = "") ∧
      (∀ m, (check "echo" (some srvStdioA) none allOkBehavior 5).err = some m →
        i.status = ServerStatus.error ∧ i.error = m) :=
  check_status_transitions "echo" srvStdioA none allOkBehavior 5

/-- The stdio environment lets the whole initialize phase succeed. -/
def stdioInitOK (b : StdioBehavior) : Prop :=
  b.stdinPipeErr = none ∧ b.stdoutPipeErr = none ∧ b.stderrPipeErr = none ∧
  b.startErr = none ∧ b.sendInitErr = none ∧ b.readInitErr = none ∧
  ∃ meta, b.parsedInit = InitParse.ok meta

/-- The stdio tools/list step fails in one of its four ways (send failure,
read failure, unparseable response, protocol error, bad result). -/
def stdioToolsFailed (b : StdioBehavior) : Prop :=
  (∃ m, b.sendToolsErr = some m) ∨ (∃ m, b.readToolsErr = some m) ∨
  (∃ m, b.parsedTools = ToolsParse.badJSON m) ∨
  (∃ m, b.parsedTools = ToolsParse.rpcErr m) ∨
  (∃ m, b.parsedTools = ToolsParse.badResult m)

/-- The HTTP initialize exchange succeeds. -/
def httpInitOK (b : HTTPBehavior) : Prop := ∃ meta, b.initStep = HTTPInitStep.ok meta

/-- The HTTP tools/list step fails in one of its ways. -/
def httpToolsFailed (b : HTTPBehavior) : Prop :=
  (∃ m, b.toolsStep = HTTPToolsStep.sendErr m) ∨
  (∃ m, b.toolsStep = HTTPToolsStep.rpcErr m) ∨
  (∃ m, b.toolsStep = HTTPToolsStep.badResult m)

/-- The C6 scenario on the transport the check dispatches to: the initialize
handshake succeeds but the subsequent tools/list step fails. -/
def initSucceededToolsFailed (srv : MCPServer) (b : DownstreamBehavior) : Prop :=
  if isStreamableHTTPServer srv then
    srv.url ≠ "" ∧ httpInitOK b.http ∧ httpToolsFailed b.http
  else
    srv.command ≠ "" ∧ stdioInitOK b.stdio ∧ stdioToolsFailed b.stdio

lemma doCheckStdio_toolsFailed (srv : MCPServer) (b : StdioBehavior) (now : Nat)
    (info0 : ServerInfo) (hcmd : ¬ srv.command = "")
    (hok : stdioInitOK b) (hfail : stdioToolsFailed b) :
    (doCheckStdio srv b now info0).res = none ∧
    ∃ e ∈ (doCheckStdio srv b now info0).logged, e.level = "warn" := by
  obtain ⟨sp, op, ep, st, pid, si, ri, pi, stl, rtl, ptl, el⟩ := b
  obtain ⟨h1, h2, h3, h4, h5, h6, meta, h7⟩ := hok
  dsimp only at h1 h2 h3 h4 h5 h6 h7
  subst h1 h2 h3 h4 h5 h6 h7
  cases stl with
  | some m =>
    refine ⟨by simp [doCheckStdio, hcmd, logTo], ?_⟩
    exact ⟨⟨now, "warn", "Failed to send tools/list: " ++ m⟩,
      by simp [doCheckStdio, hcmd, logTo], rfl⟩
  | none =>
    cases rtl with
    | some m =>
      refine ⟨by simp [doCheckStdio, hcmd, logTo], ?_⟩
      exact ⟨⟨now, "warn", "Failed to read tools/list response: " ++ m⟩,
        by simp [doCheckStdio, hcmd, logTo], rfl⟩
    | none =>
      rcases hfail with ⟨m, hm⟩ | ⟨m, hm⟩ | ⟨m, hm⟩ | ⟨m, hm⟩ | ⟨m, hm⟩ <;> dsimp only at hm
      · exact absurd hm (by simp)
      · exact absurd hm (by simp)
      · subst hm
        refine ⟨by simp [doCheckStdio, hcmd, logTo], ?_⟩
        exact ⟨⟨now, "warn", "Invalid tools/list response: " ++ m⟩,
          by simp [doCheckStdio, hcmd, logTo], rfl⟩
      · subst hm
        refine ⟨by simp [doCheckStdio, hcmd, logTo], ?_⟩
        exact ⟨⟨now, "warn", "tools/list error: " ++ m⟩,
          by simp [doCheckStdio, hcmd, logTo], rfl⟩
      · subst hm
        refine ⟨by simp [doCheckStdio, hcmd, logTo], ?_⟩
        exact ⟨⟨now, "warn", "Failed to parse tools: " ++ m⟩,
          by simp [doCheckStdio, hcmd, logTo], rfl⟩

lemma doCheckHTTP_toolsFailed (srv : MCPServer) (b : HTTPBehavior) (now : Nat)
    (info0 : ServerInfo) (hurl : ¬ srv.url = "")
    (hok : httpInitOK b) (hfail : httpToolsFailed b) :
    (doCheckHTTP srv b now info0).res = none ∧
    ∃ e ∈ (doCheckHTTP srv b now info0).logged, e.level = "warn" := by
  obtain ⟨istep, notif, tstep, el⟩ := b
  obtain ⟨meta, h7⟩ := hok
  dsimp only at h7
  subst h7
  rcases hfail with ⟨m, hm⟩ | ⟨m, hm⟩ | ⟨m, hm⟩ <;> dsimp only at hm <;> subst hm
  · cases notif with
    | none =>
      refine ⟨by simp [doCheckHTTP, hurl, finishHTTP, logTo], ?_⟩
      exact ⟨⟨now, "warn", "tools/list request failed: " ++ m⟩,
        by simp [doCheckHTTP, hurl, finishHTTP, logTo], rfl⟩
    | some mn =>
      refine ⟨by simp [doCheckHTTP, hurl, finishHTTP, logTo], ?_⟩
      exact ⟨⟨now, "warn", "tools/list request failed: " ++ m⟩,
        by simp [doCheckHTTP, hurl, finishHTTP, logTo], rfl⟩
  · cases notif with
    | none =>
      refine ⟨by simp [doCheckHTTP, hurl, finishHTTP, logTo], ?_⟩
      exact ⟨⟨now, "warn", "tools/list error: " ++ m⟩,
        by simp [doCheckHTTP, hurl, finishHTTP, logTo], rfl⟩
    | some mn =>
      refine ⟨by simp [doCheckHTTP, hurl, finishHTTP, logTo], ?_⟩
      exact ⟨⟨now, "warn", "tools/list error: " ++ m⟩,
        by simp [doCheckHTTP, hurl, finishHTTP, logTo], rfl⟩
  · cases notif with
    | none =>
      refine ⟨by simp [doCheckHTTP, hurl, finishHTTP, logTo], ?_⟩
      exact ⟨⟨now, "warn", "Failed to parse tools: " ++ m⟩,
        by simp [doCheckHTTP, hurl, finishHTTP, logTo], rfl⟩
    | some mn =>
      refine ⟨by simp [doCheckHTTP, hurl, finishHTTP, logTo], ?_⟩
      exact ⟨⟨now, "warn", "Failed to parse tools: " ++ m⟩,
        by simp [doCheckHTTP, hurl, finishHTTP, logTo], rfl⟩

lemma doCheck_toolsFailed (srv : MCPServer) (b : DownstreamBehavior) (now : Nat)
    (info0 : ServerInfo) (h : initSucceededToolsFailed srv b) :
    (doCheck srv b now info0).res = none ∧
    ∃ e ∈ (doCheck srv b now info0).logged, e.level = "warn" := by
  unfold initSucceededToolsFailed at h
  unfold doCheck
  cases hs : isStreamableHTTPServer srv with
  | true =>
    rw [hs] at h
    simp only [if_true] at h ⊢
    exact doCheckHTTP_toolsFailed srv b.http now info0 h.1 h.2.1 h.2.2
  | false =>
    rw [hs] at h
    simp only [Bool.false_eq_true, if_false] at h ⊢
    exact doCheckStdio_toolsFailed srv b.stdio now info0 h.1 h.2.1 h.2.2

lemma finishCheck_ok (d : DoCheckOut) (pre : List LogEntry) (now : Nat) (h : d.res = none) :
    (finishCheck d pre now).err = none ∧
    (∃ i, (finishCheck d pre now).info = some i ∧ i.status = ServerStatus.healthy) ∧
    (finishCheck d pre now).logged = pre ++ d.logged := by
  rcases d with ⟨res, di, dl⟩
  dsimp only at h
  subst h
  exact ⟨rfl, ⟨_, rfl, rfl⟩, rfl⟩

lemma finishCheck_doCheck_toolsFailed (srv : MCPServer) (b : DownstreamBehavior) (now : Nat)
    (i0 : ServerInfo) (pre : List LogEntry) (h : initSucceededToolsFailed srv b) :
    (finishCheck (doCheck srv b now i0) pre now).err = none ∧
    (∃ i, (finishCheck (doCheck srv b now i0) pre now).info = some i ∧
      i.status = ServerStatus.healthy) ∧
    ∃ e ∈ (finishCheck (doCheck srv b now i0) pre now).logged, e.level = "warn" := by
  obtain ⟨hres, e, he, hlv⟩ := doCheck_toolsFailed srv b now i0 h
  obtain ⟨he1, he2, he3⟩ := finishCheck_ok (doCheck srv b now i0) pre now hres
  exact ⟨he1, he2, ⟨e, by rw [he3]; exact List.mem_append_right _ he, hlv⟩⟩

/-- C6: whenever the initialize handshake succeeds and the tools/list step
fails, the check completes without error, the final status is `healthy`,
and the failure is recorded at warn level. -/
theorem check_tools_failure_still_healthy (name : String) (srv : MCPServer)
    (existing : Option ServerInfo) (b : DownstreamBehavior) (now : Nat)
    (h : initSucceededToolsFailed srv b) :
    (check name (some srv) existing b now).err = none ∧
    (∃ i, (check name (some srv) existing b now).info = some i ∧
      i.status = ServerStatus.healthy) ∧
    ∃ e ∈ (check name (some srv) existing b now).logged, e.level = "warn" := by
  simp only [check]
  exact finishCheck_doCheck_toolsFailed srv b now _ _ h

/-- A behaviour whose stdio tools/list read fails after a clean initialize. -/
def toolsFailBehavior : DownstreamBehavior :=
  ⟨⟨none, none, none, none, 42, none, none, .ok (some ("echo", "0.1", "2024-11-05")),
    none, some "EOF", .ok [], 7⟩,
   ⟨.ok (some ("echo", "0.1", "2024-11-05")), none, .sendErr "EOF", 7⟩⟩

/-- C6 witness: a concrete stdio check whose tools/list read fails. -/
theorem check_tools_failure_still_healthy_witness :
    (check "echo" (some srvStdioA) none toolsFailBehavior 5).err = none ∧
    (∃ i, (check "echo" (some srvStdioA) none toolsFailBehavior 5).info = some i ∧
      i.status = ServerStatus.healthy) ∧
    ∃ e ∈ (check "echo" (some srvStdioA) none toolsFailBehavior 5).logged, e.level = "warn" :=
  check_tools_failure_still_healthy "echo" srvStdioA none toolsFailBehavior 5
    (by
      have hs : isStreamableHTTPServer srvStdioA = false := by decide
      unfold initSucceededToolsFailed
      rw [hs]
      simp only [Bool.false_eq_true, if_false]
      exact ⟨by decide,
        ⟨rfl, rfl, rfl, rfl, rfl, rfl, ⟨some ("echo", "0.1", "2024-11-05"), rfl⟩⟩,
        Or.inr (Or.inl ⟨"EOF", rfl⟩)⟩)

end MCPCatalog
